import Mathlib

/-!
Shallow embedding of the user-CRUD service (Go + Fiber + GORM/SQLite):
the domain model (`internal/domain/user.go`), the SQLite-backed repository
(`internal/repository/user_repository.go` over the GORM primitives),
the use case (`internal/usecase/user_usecase.go`) and the HTTP handler
(`internal/handler/user_handler.go`).

Machine integers: Go `uint` ids are modelled as `Nat` (the code never
overflows them), Go `int` points as `Int`.  Time is an abstract `Nat`
clock carried in the repository state.  The GORM bookkeeping columns
`CreatedAt`/`UpdatedAt` are storage-maintained timestamps that no claim
mentions; they are not modelled.
-/

namespace Workshop

/-- `domain.User` (internal/domain/user.go).  `ID` is the `gorm:"primarykey"`
column, `Email` and `MembershipID` carry `gorm:"unique"` constraints,
`JoinDate` is `gorm:"autoCreateTime"` (0 models Go's zero `time.Time`). -/
structure User where
  id : Nat
  firstName : String
  lastName : String
  email : String
  phone : String
  membershipType : String
  membershipID : String
  joinDate : Nat
  points : Int
  deriving Repr, DecidableEq

/-- `domain.CreateUserRequest`: Go zero values stand for omitted JSON fields. -/
structure CreateUserRequest where
  firstName : String
  lastName : String
  email : String
  phone : String
  membershipType : String
  points : Int
  deriving Repr, DecidableEq

/-- `domain.UpdateUserRequest`: Go zero values stand for omitted JSON fields. -/
structure UpdateUserRequest where
  firstName : String
  lastName : String
  email : String
  phone : String
  membershipType : String
  points : Int
  deriving Repr, DecidableEq

/-- `domain.UserRepository`: the interface the use case is injected with.
Go functions returning `(*User, error)` become pairs of options, so that a
caller can (as the use case does for `GetByEmail`) inspect the pointer while
discarding the error.  `create` returns the stored user (Go mutates the
passed pointer in place, populating the id) together with the error slot and
the post-state; `update`/`delete` return the error slot and the post-state. -/
structure UserRepositoryI (σ : Type) where
  getByID : σ → Nat → Option User × Option String
  getByEmail : σ → String → Option User × Option String
  create : σ → User → (User × Option String) × σ
  update : σ → User → Option String × σ
  delete : σ → Nat → Option String × σ

/-! ### The SQLite/GORM-backed repository -/

/-- State of the SQLite `users` table: the rows, the next auto-assigned
primary key (SQLite hands out max(rowid)+1; we track it as a counter kept
ahead of every stored id), and the current clock used for `autoCreateTime`. -/
structure RepoState where
  users : List User
  nextId : Nat
  now : Nat
  deriving Repr, DecidableEq

/-- `userRepository.GetByID`: GORM `First(&user, id)`, with
`ErrRecordNotFound` translated to the domain error string. -/
def dbGetByID (s : RepoState) (id : Nat) : Option User × Option String :=
  match s.users.find? (fun v => v.id == id) with
  | some u => (some u, none)
  | none => (none, some "user not found")

/-- `userRepository.GetByEmail`: GORM `Where("email = ?", email).First`,
with `ErrRecordNotFound` translated to the domain error string. -/
def dbGetByEmail (s : RepoState) (email : String) : Option User × Option String :=
  match s.users.find? (fun v => v.email == email) with
  | some u => (some u, none)
  | none => (none, some "user not found")

/-- `userRepository.Create`: GORM `Create` = SQL INSERT.  SQLite enforces the
unique constraints on id (primary key), email and membership id declared by
the gorm struct tags; on success it assigns the primary key when the value's
id is zero and `autoCreateTime` fills a zero `JoinDate` with the clock. -/
def dbCreate (s : RepoState) (u : User) : (User × Option String) × RepoState :=
  if u.id != 0 && s.users.any (fun v => v.id == u.id) then
    ((u, some "UNIQUE constraint failed: users.id"), s)
  else if s.users.any (fun v => v.email == u.email) then
    ((u, some "UNIQUE constraint failed: users.email"), s)
  else if s.users.any (fun v => v.membershipID == u.membershipID) then
    ((u, some "UNIQUE constraint failed: users.membership_id"), s)
  else
    let u' : User := { u with
      id := if u.id == 0 then s.nextId else u.id,
      joinDate := if u.joinDate == 0 then s.now else u.joinDate }
    ((u', none), { s with users := s.users ++ [u'], nextId := max s.nextId (u'.id + 1) })

/-- `userRepository.Update`, i.e. GORM `Save`.  Modelled from the spec:
GORM's `Save` is not in this repository; the spec records that the source
uses "an upsert-style save that would silently re-create a row if the id no
longer exists".  Accordingly: a zero primary key goes straight to the insert
path; otherwise an UPDATE keyed on the id runs (subject to the SQLite unique
constraints), and when it affects zero rows `Save` falls back to the insert
path. -/
def dbUpdate (s : RepoState) (u : User) : Option String × RepoState :=
  if u.id == 0 then
    let r := dbCreate s u
    (r.1.2, r.2)
  else if s.users.any (fun v => v.id == u.id) then
    if s.users.any (fun v => v.id != u.id && v.email == u.email) then
      (some "UNIQUE constraint failed: users.email", s)
    else if s.users.any (fun v => v.id != u.id && v.membershipID == u.membershipID) then
      (some "UNIQUE constraint failed: users.membership_id", s)
    else
      (none, { s with users := s.users.map (fun v => if v.id == u.id then u else v) })
  else
    let r := dbCreate s u
    (r.1.2, r.2)

/-- `userRepository.Delete`: GORM `Delete(&User{}, id)` = `DELETE WHERE id`,
then the repository turns a zero `RowsAffected` into the not-found error. -/
def dbDelete (s : RepoState) (id : Nat) : Option String × RepoState :=
  let affected := (s.users.filter (fun v => v.id == id)).length
  if affected == 0 then
    (some "user not found", s)
  else
    (none, { s with users := s.users.filter (fun v => v.id != id) })

/-- The concrete repository (`repository.NewUserRepository`). -/
def dbRepo : UserRepositoryI RepoState where
  getByID := dbGetByID
  getByEmail := dbGetByEmail
  create := dbCreate
  update := dbUpdate
  delete := dbDelete

/-! ### Membership-id generation (pkg/database/database.go) -/

/-- Models Go `fmt.Sprintf` verb `%06d` applied to a natural number: the
decimal representation (`Nat.repr`, matching Go integer formatting)
left-padded with zeros to width 6. -/
def sprintf06 (n : Nat) : String :=
  ⟨List.replicate (6 - (Nat.repr n).length) '0' ++ (Nat.repr n).data⟩

/-- `database.GenerateMembershipID`:
`fmt.Sprintf("LBK%06d", time.Now().UnixNano()%999999)`.  The clock reading
`time.Now().UnixNano()` is the explicit parameter `nanos`. -/
def GenerateMembershipID (nanos : Nat) : String :=
  "LBK" ++ sprintf06 (nanos % 999999)

/-! ### The use case (internal/usecase/user_usecase.go) -/

/-- `userUseCase.GetUserByID`. -/
def GetUserByID (R : UserRepositoryI σ) (s : σ) (id : Nat) : Option User × Option String :=
  if id = 0 then (none, some "invalid user ID")
  else R.getByID s id

/-- The value `user := &domain.User{...}` built by `userUseCase.CreateUser`
from the request, after the subsequent default-membership assignment
`if user.MembershipType == "" { user.MembershipType = "Bronze" }`.
Id and join date are left zero for the repository to assign. -/
def pendingUser (req : CreateUserRequest) (nanos : Nat) : User :=
  { id := 0
    firstName := req.firstName
    lastName := req.lastName
    email := req.email
    phone := req.phone
    membershipType := if req.membershipType = "" then "Bronze" else req.membershipType
    membershipID := GenerateMembershipID nanos
    joinDate := 0
    points := req.points }

/-- The row `dbCreate` actually stores for `pendingUser req nanos`:
the next primary key and the clock are filled in. -/
def insertedUser (s : RepoState) (req : CreateUserRequest) (nanos : Nat) : User :=
  { pendingUser req nanos with id := s.nextId, joinDate := s.now }

/-- `userUseCase.CreateUser`.  The clock reading consumed by
`database.GenerateMembershipID()` is the explicit parameter `nanos`.
Note the Go line `existingUser, _ := u.userRepo.GetByEmail(req.Email)`
discards the probe's error and inspects only the returned pointer. -/
def CreateUser (R : UserRepositoryI σ) (s : σ) (req : CreateUserRequest) (nanos : Nat) :
    (Option User × Option String) × σ :=
  if req.firstName = "" ∨ req.lastName = "" ∨ req.email = "" then
    ((none, some "first name, last name, and email are required"), s)
  else if ((R.getByEmail s req.email).1).isSome then
    ((none, some "user with this email already exists"), s)
  else
    let user : User := pendingUser req nanos
    let r := R.create s user
    match r.1.2 with
    | some e => ((none, some e), r.2)
    | none => ((some r.1.1, none), r.2)

/-- The field-by-field merge of `userUseCase.UpdateUser`
(`if req.X != "" { user.X = req.X }`, `if req.Points != 0 { ... }`). -/
def mergeFields (req : UpdateUserRequest) (user : User) : User :=
  { user with
    firstName := if req.firstName ≠ "" then req.firstName else user.firstName
    lastName := if req.lastName ≠ "" then req.lastName else user.lastName
    phone := if req.phone ≠ "" then req.phone else user.phone
    membershipType := if req.membershipType ≠ "" then req.membershipType else user.membershipType
    points := if req.points ≠ 0 then req.points else user.points }

/-- Tail of `userUseCase.UpdateUser` after the email block: the field merge
followed by `u.userRepo.Update(user)`. -/
def saveMergedUser (R : UserRepositoryI σ) (s : σ) (req : UpdateUserRequest) (user : User) :
    (Option User × Option String) × σ :=
  let merged : User := mergeFields req user
  let r := R.update s merged
  match r.1 with
  | some e => ((none, some e), r.2)
  | none => ((some merged, none), r.2)

/-- `userUseCase.UpdateUser`.  As in `CreateUser`, the duplicate-email probe
`existingUser, _ := u.userRepo.GetByEmail(req.Email)` discards the error.
The `(none, none)` outcome of `getByID` never arises from the SQLite
repository; the Go code would dereference a nil pointer there. -/
def UpdateUser (R : UserRepositoryI σ) (s : σ) (id : Nat) (req : UpdateUserRequest) :
    (Option User × Option String) × σ :=
  if id = 0 then ((none, some "invalid user ID"), s)
  else
    match R.getByID s id with
    | (_, some e) => ((none, some e), s)
    | (none, none) => ((none, none), s)
    | (some user, none) =>
      if req.email ≠ "" ∧ req.email ≠ user.email then
        if ((R.getByEmail s req.email).1).isSome then
          ((none, some "user with this email already exists"), s)
        else
          saveMergedUser R s req { user with email := req.email }
      else
        saveMergedUser R s req user

/-- `userUseCase.DeleteUser`: after the zero-id guard it calls `GetByID`
purely for its error and then delegates to the repository delete. -/
def DeleteUser (R : UserRepositoryI σ) (s : σ) (id : Nat) : Option String × σ :=
  if id = 0 then (some "invalid user ID", s)
  else
    match (R.getByID s id).2 with
    | some e => (some e, s)
    | none => R.delete s id

/-! ### The HTTP handler (internal/handler/user_handler.go) -/

/-- Models Go `strconv.ParseUint(s, 10, 32)`: succeeds exactly on a nonempty
all-decimal-digit string (no sign prefix) whose value fits in 32 bits. -/
def parseUint32 (s : String) : Option Nat :=
  if s.data ≠ [] ∧ s.data.all Char.isDigit then
    let v := s.data.foldl (fun acc c => acc * 10 + (c.toNat - 48)) 0
    if v < 4294967296 then some v else none
  else none

/-- A JSON response: HTTP status, the message under the `error` key (if any)
and the user under the `data` key (if any). -/
structure Response where
  status : Nat
  error : Option String
  data : Option User
  deriving Repr, DecidableEq

/-- `UserHandler.GetUser` (GET /users/:id). -/
def getUserHandler (R : UserRepositoryI σ) (s : σ) (idParam : String) : Response :=
  match parseUint32 idParam with
  | none => ⟨400, some "Invalid user ID", none⟩
  | some id =>
    match GetUserByID R s id with
    | (_, some e) =>
      if e = "user not found" then ⟨404, some "User not found", none⟩
      else ⟨500, some "Failed to retrieve user", none⟩
    | (u, none) => ⟨200, none, u⟩

/-- `UserHandler.UpdateUser` (PUT /users/:id), taking the already-decoded
request body (the body-parse failure branch is outside every claim). -/
def updateUserHandler (R : UserRepositoryI σ) (s : σ) (idParam : String)
    (req : UpdateUserRequest) : Response × σ :=
  match parseUint32 idParam with
  | none => (⟨400, some "Invalid user ID", none⟩, s)
  | some id =>
    let r := UpdateUser R s id req
    match r.1 with
    | (_, some e) =>
      if e = "user not found" then (⟨404, some "User not found", none⟩, r.2)
      else if e = "user with this email already exists" then (⟨400, some e, none⟩, r.2)
      else (⟨500, some "Failed to update user", none⟩, r.2)
    | (u, none) => (⟨200, none, u⟩, r.2)

/-- `UserHandler.DeleteUser` (DELETE /users/:id).  The success body carries
only the fixed confirmation message, modelled as an empty response payload. -/
def deleteUserHandler (R : UserRepositoryI σ) (s : σ) (idParam : String) : Response × σ :=
  match parseUint32 idParam with
  | none => (⟨400, some "Invalid user ID", none⟩, s)
  | some id =>
    let r := DeleteUser R s id
    match r.1 with
    | some e =>
      if e = "user not found" then (⟨404, some "User not found", none⟩, r.2)
      else (⟨500, some "Failed to delete user", none⟩, r.2)
    | none => (⟨200, none, none⟩, r.2)

/-- The error-to-status mapping asserted by the spec: not-found goes to 404,
the two validation strings go to 400, everything else to 500. -/
def claimedStatus (e : String) : Nat :=
  if e = "user not found" then 404
  else if e = "first name, last name, and email are required" ∨
    e = "user with this email already exists" then 400
  else 500

/-! ### Sample data for witnesses -/

/-- A stored user used by concrete witnesses. -/
def alice : User :=
  { id := 1, firstName := "Alice", lastName := "Doe", email := "alice@example.com",
    phone := "081", membershipType := "Gold", membershipID := "LBK000001",
    joinDate := 10, points := 5 }

/-- A second stored user used by concrete witnesses. -/
def bob : User :=
  { id := 2, firstName := "Bob", lastName := "Roe", email := "bob@example.com",
    phone := "082", membershipType := "Silver", membershipID := "LBK000002",
    joinDate := 20, points := 7 }

/-- The empty table. -/
def st0 : RepoState := ⟨[], 1, 100⟩

/-- A table holding `alice`. -/
def st1 : RepoState := ⟨[alice], 2, 100⟩

/-- A table holding `alice` and `bob`. -/
def st2 : RepoState := ⟨[alice, bob], 3, 100⟩

/-- The all-zero update request (every JSON field omitted). -/
def emptyUpdateReq : UpdateUserRequest := ⟨"", "", "", "", "", 0⟩

/-- Well-formedness of the table, as enforced by the SQLite unique
constraints on id (primary key), email and membership id. -/
def WF (s : RepoState) : Prop :=
  s.users.Pairwise (fun a b => a.id ≠ b.id ∧ a.email ≠ b.email ∧ a.membershipID ≠ b.membershipID)

/-! ### Helper lemmas -/

theorem dbGetByEmail_fst (s : RepoState) (em : String) :
    (dbGetByEmail s em).1 = s.users.find? (fun v => v.email == em) := by
  unfold dbGetByEmail
  cases s.users.find? (fun v => v.email == em) <;> rfl

theorem dbGetByID_fst (s : RepoState) (id : Nat) :
    (dbGetByID s id).1 = s.users.find? (fun v => v.id == id) := by
  unfold dbGetByID
  cases s.users.find? (fun v => v.id == id) <;> rfl

theorem dbDelete_notFound (s : RepoState) (id : Nat) (h : ∀ v ∈ s.users, v.id ≠ id) :
    dbDelete s id = (some "user not found", s) := by
  unfold dbDelete
  have hfil : s.users.filter (fun v => v.id == id) = [] := by
    rw [List.filter_eq_nil_iff]
    intro v hv
    simpa using h v hv
  simp [hfil]

theorem deleteUser_notFound (s : RepoState) (id : Nat) (h0 : id ≠ 0)
    (h : ∀ v ∈ s.users, v.id ≠ id) :
    DeleteUser dbRepo s id = (some "user not found", s) := by
  unfold DeleteUser
  rw [if_neg h0]
  have hfind : s.users.find? (fun v => v.id == id) = none := by
    rw [List.find?_eq_none]
    intro v hv
    simpa using h v hv
  show (match (dbGetByID s id).2 with
    | some e => (some e, s)
    | none => dbDelete s id) = (some "user not found", s)
  unfold dbGetByID
  rw [hfind]

theorem createUser_dup (s : RepoState) (req : CreateUserRequest) (nanos : Nat)
    (h1 : req.firstName ≠ "") (h2 : req.lastName ≠ "") (h3 : req.email ≠ "")
    (w : User) (hw : w ∈ s.users) (hemail : w.email = req.email) :
    CreateUser dbRepo s req nanos =
      ((none, some "user with this email already exists"), s) := by
  unfold CreateUser
  rw [if_neg (by push_neg; exact ⟨h1, h2, h3⟩)]
  have hpr : ((dbRepo.getByEmail s req.email).1).isSome = true := by
    show ((dbGetByEmail s req.email).1).isSome = true
    rw [dbGetByEmail_fst, List.find?_isSome]
    exact ⟨w, hw, by simpa using hemail⟩
  rw [if_pos hpr]

/-- Full characterization of a successful `CreateUser` against the SQLite
repository: the request was valid, the email was fresh, and the returned
user and state are exactly the inserted row. -/
theorem createUser_ok_char (s : RepoState) (req : CreateUserRequest) (nanos : Nat)
    (u : User) (s' : RepoState)
    (hsucc : CreateUser dbRepo s req nanos = ((some u, none), s')) :
    req.firstName ≠ "" ∧ req.lastName ≠ "" ∧ req.email ≠ "" ∧
    (∀ v ∈ s.users, v.email ≠ req.email) ∧
    u = insertedUser s req nanos ∧
    s' = { users := s.users ++ [u], nextId := s.nextId + 1, now := s.now } := by
  unfold CreateUser at hsucc
  by_cases hval : req.firstName = "" ∨ req.lastName = "" ∨ req.email = ""
  · rw [if_pos hval] at hsucc
    simp at hsucc
  rw [if_neg hval] at hsucc
  push_neg at hval
  by_cases hprobe : ((dbRepo.getByEmail s req.email).1).isSome = true
  · rw [if_pos hprobe] at hsucc
    simp at hsucc
  rw [if_neg hprobe] at hsucc
  have hfresh : ∀ v ∈ s.users, v.email ≠ req.email := by
    intro v hv
    have hnone : (dbGetByEmail s req.email).1 = none :=
      Option.not_isSome_iff_eq_none.mp (by simpa using hprobe)
    rw [dbGetByEmail_fst, List.find?_eq_none] at hnone
    simpa using hnone v hv
  have hany : s.users.any (fun v => v.email == req.email) = false := by
    rw [List.any_eq_false]
    intro v hv
    simpa using hfresh v hv
  dsimp only [dbRepo] at hsucc
  by_cases hmid : s.users.any
      (fun v => v.membershipID == GenerateMembershipID nanos) = true
  · have hC : dbCreate s (pendingUser req nanos) =
        ((pendingUser req nanos, some "UNIQUE constraint failed: users.membership_id"), s) := by
      simp [dbCreate, pendingUser, hany, hmid]
    rw [hC] at hsucc
    simp at hsucc
  · have hC : dbCreate s (pendingUser req nanos) =
        ((insertedUser s req nanos, none),
          { users := s.users ++ [insertedUser s req nanos],
            nextId := s.nextId + 1, now := s.now }) := by
      simp [dbCreate, insertedUser, pendingUser, hany, hmid,
        Nat.max_eq_right (Nat.le_succ s.nextId)]
    rw [hC] at hsucc
    simp only [Prod.mk.injEq, Option.some.injEq] at hsucc
    obtain ⟨⟨hu, -⟩, hs'⟩ := hsucc
    refine ⟨hval.1, hval.2.1, hval.2.2, hfresh, hu.symm, ?_⟩
    rw [← hs', hu]


end Workshop

namespace Workshop

/-! ### Claims -/

/-- C4: every create request with an empty first name, last name or email
fails with the required-fields validation error and performs no repository
call at all: the outcome and the state are the same for every repository
implementation, and the state is returned unchanged. -/
theorem c4_create_validation_no_repo_call (σ : Type) (R : UserRepositoryI σ) (s : σ)
    (req : CreateUserRequest) (nanos : Nat)
    (h : req.firstName = "" ∨ req.lastName = "" ∨ req.email = "") :
    CreateUser R s req nanos =
      ((none, some "first name, last name, and email are required"), s) := by
  unfold CreateUser
  rw [if_pos h]

/-- Witness for C4 at a concrete request with an empty last name. -/
theorem c4_create_validation_no_repo_call_witness :
    CreateUser dbRepo st1 ⟨"John", "", "john@example.com", "", "", 0⟩ 123456 =
      ((none, some "first name, last name, and email are required"), st1) :=
  c4_create_validation_no_repo_call RepoState dbRepo st1 _ 123456 (Or.inr (Or.inl rfl))

/-- C10: in both `CreateUser` and `UpdateUser` the error component of the
`GetByEmail` probe is discarded: replacing the probe by any function `g`
that returns the same user component (but arbitrary errors, e.g. an
infrastructure failure instead of success) leaves both operations
unchanged.  In particular a failing probe that returns no user behaves
exactly like "no user with that email exists" and the operation proceeds,
and a duplicate is detected only when the probe returns a user. -/
theorem c10_probe_error_discarded (σ : Type) (R : UserRepositoryI σ)
    (g : σ → String → Option User × Option String)
    (hg : ∀ t em, (g t em).1 = (R.getByEmail t em).1) (s : σ)
    (req : CreateUserRequest) (nanos : Nat) (id : Nat) (ureq : UpdateUserRequest) :
    CreateUser { R with getByEmail := g } s req nanos = CreateUser R s req nanos ∧
    UpdateUser { R with getByEmail := g } s id ureq = UpdateUser R s id ureq := by
  constructor
  · unfold CreateUser
    simp only [hg]
  · unfold UpdateUser saveMergedUser
    simp only [hg]

/-- Witness for C10: against the SQLite repository with a probe whose error
slot reports a lost connection, creating and updating behave as if the probe
had succeeded. -/
theorem c10_probe_error_discarded_witness :
    CreateUser { dbRepo with
        getByEmail := fun t em => ((dbGetByEmail t em).1, some "connection lost") }
      st1 ⟨"John", "Doe", "john@example.com", "", "", 0⟩ 123456 =
      CreateUser dbRepo st1 ⟨"John", "Doe", "john@example.com", "", "", 0⟩ 123456 ∧
    UpdateUser { dbRepo with
        getByEmail := fun t em => ((dbGetByEmail t em).1, some "connection lost") }
      st1 1 ⟨"", "", "bob@example.com", "", "", 0⟩ =
      UpdateUser dbRepo st1 1 ⟨"", "", "bob@example.com", "", "", 0⟩ :=
  c10_probe_error_discarded RepoState dbRepo _ (fun _ _ => rfl) st1
    ⟨"John", "Doe", "john@example.com", "", "", 0⟩ 123456 1 ⟨"", "", "bob@example.com", "", "", 0⟩

/-- C8: `DeleteUser` at id 0 fails with the invalid-id error for every
repository implementation, with the state untouched; at the repository a
delete that affects zero rows reports not-found; a use-case delete of an id
matching no row reports not-found and leaves the state unchanged; deleting
an existing id removes exactly the rows with that id, and a second delete of
the same id then reports not-found (idempotent-as-failure). -/
theorem c8_delete_behavior :
    (∀ (σ : Type) (R : UserRepositoryI σ) (s : σ),
        DeleteUser R s 0 = (some "invalid user ID", s)) ∧
    (∀ (s : RepoState) (id : Nat), (∀ v ∈ s.users, v.id ≠ id) →
        dbDelete s id = (some "user not found", s)) ∧
    (∀ (s : RepoState) (id : Nat), id ≠ 0 → (∀ v ∈ s.users, v.id ≠ id) →
        DeleteUser dbRepo s id = (some "user not found", s)) ∧
    (∀ (s : RepoState) (id : Nat) (user : User), id ≠ 0 →
        dbGetByID s id = (some user, none) →
        DeleteUser dbRepo s id =
          (none, { s with users := s.users.filter (fun v => v.id != id) }) ∧
        DeleteUser dbRepo { s with users := s.users.filter (fun v => v.id != id) } id =
          (some "user not found",
            { s with users := s.users.filter (fun v => v.id != id) })) := by
  refine ⟨?_, dbDelete_notFound, deleteUser_notFound, ?_⟩
  · intro σ R s
    unfold DeleteUser
    rw [if_pos rfl]
  · intro s id user h0 hget
    have hfind : s.users.find? (fun v => v.id == id) = some user := by
      have := dbGetByID_fst s id
      rw [hget] at this
      exact this.symm
    have hmem : user ∈ s.users := List.mem_of_find?_eq_some hfind
    have hid : user.id = id := by
      have := List.find?_some hfind
      simpa using this
    constructor
    · unfold DeleteUser
      rw [if_neg h0]
      show (match (dbGetByID s id).2 with
        | some e => (some e, s)
        | none => dbDelete s id) = _
      unfold dbGetByID
      rw [hfind]
      show dbDelete s id = _
      unfold dbDelete
      have hne : (s.users.filter (fun v => v.id == id)).length ≠ 0 := by
        intro hlen
        have : s.users.filter (fun v => v.id == id) = [] := List.eq_nil_of_length_eq_zero hlen
        have : user ∉ s.users.filter (fun v => v.id == id) := by simp [this]
        exact this (List.mem_filter.mpr ⟨hmem, by simpa using hid⟩)
      simp only [beq_iff_eq] at hne ⊢
      rw [if_neg (by simpa using hne)]
    · apply deleteUser_notFound _ _ h0
      intro v hv
      have := List.mem_filter.mp hv
      simpa using this.2

/-- C1: creating with an email that already belongs to a stored user fails
with the duplicate-email error and leaves the table unchanged (no row is
inserted); moreover after a successful create, a second create with the same
email fails that way, the state is kept, and exactly one row with that email
persists. -/
theorem c1_duplicate_email_one_row :
    (∀ (s : RepoState) (req : CreateUserRequest) (nanos : Nat) (w : User),
        req.firstName ≠ "" → req.lastName ≠ "" → req.email ≠ "" →
        w ∈ s.users → w.email = req.email →
        CreateUser dbRepo s req nanos =
          ((none, some "user with this email already exists"), s)) ∧
    (∀ (s : RepoState) (req req' : CreateUserRequest) (nanos nanos' : Nat)
        (u : User) (s' : RepoState),
        req'.firstName ≠ "" → req'.lastName ≠ "" → req'.email = req.email →
        CreateUser dbRepo s req nanos = ((some u, none), s') →
        CreateUser dbRepo s' req' nanos' =
          ((none, some "user with this email already exists"), s') ∧
        (s'.users.filter (fun v => v.email == req.email)).length = 1) := by
  constructor
  · intro s req nanos w h1 h2 h3 hw hemail
    exact createUser_dup s req nanos h1 h2 h3 w hw hemail
  · intro s req req' nanos nanos' u s' h1' h2' hEq hsucc
    obtain ⟨h1, h2, h3, hfresh, hu, hs'⟩ := createUser_ok_char s req nanos u s' hsucc
    have huemail : u.email = req.email := by rw [hu]; rfl
    constructor
    · refine createUser_dup s' req' nanos' h1' h2' (by rw [hEq]; exact h3) u ?_ ?_
      · rw [hs']
        exact List.mem_append_right _ (List.mem_singleton.mpr rfl)
      · rw [huemail, hEq]
    · rw [hs']
      show ((s.users ++ [u]).filter (fun v => v.email == req.email)).length = 1
      rw [List.filter_append]
      have hnil : s.users.filter (fun v => v.email == req.email) = [] := by
        rw [List.filter_eq_nil_iff]
        intro v hv
        simpa using hfresh v hv
      rw [hnil]
      simp [huemail]

/-- Witness for C1: a duplicate create against the table holding `alice`,
and the create-then-duplicate-create pair starting from the empty table. -/
theorem c1_duplicate_email_one_row_witness :
    CreateUser dbRepo st1 ⟨"John", "Doe", "alice@example.com", "", "", 0⟩ 123456 =
      ((none, some "user with this email already exists"), st1) ∧
    (CreateUser dbRepo
        ⟨[⟨1, "John", "Doe", "john@example.com", "", "Bronze", "LBK123456", 100, 0⟩], 2, 100⟩
        ⟨"Jane", "Roe", "john@example.com", "", "", 0⟩ 77 =
      ((none, some "user with this email already exists"),
        ⟨[⟨1, "John", "Doe", "john@example.com", "", "Bronze", "LBK123456", 100, 0⟩], 2, 100⟩) ∧
      ((⟨[⟨1, "John", "Doe", "john@example.com", "", "Bronze", "LBK123456", 100, 0⟩], 2,
          100⟩ : RepoState).users.filter
        (fun v => v.email == "john@example.com")).length = 1) :=
  ⟨c1_duplicate_email_one_row.1 st1 ⟨"John", "Doe", "alice@example.com", "", "", 0⟩ 123456 alice
      (by decide) (by decide) (by decide) (by decide) (by decide),
    c1_duplicate_email_one_row.2 st0 ⟨"John", "Doe", "john@example.com", "", "", 0⟩
      ⟨"Jane", "Roe", "john@example.com", "", "", 0⟩ 123456 77
      ⟨1, "John", "Doe", "john@example.com", "", "Bronze", "LBK123456", 100, 0⟩
      ⟨[⟨1, "John", "Doe", "john@example.com", "", "Bronze", "LBK123456", 100, 0⟩], 2, 100⟩
      (by decide) (by decide) rfl (by decide)⟩

theorem digitChar_isDigit (m : Nat) (h : m < 10) : (Nat.digitChar m).isDigit = true := by
  interval_cases m <;> decide

theorem toDigitsCore_digits (f : Nat) : ∀ (n : Nat) (ds : List Char),
    (∀ c ∈ ds, c.isDigit = true) → ∀ c ∈ Nat.toDigitsCore 10 f n ds, c.isDigit = true := by
  induction f with
  | zero =>
    intro n ds hds
    simpa [Nat.toDigitsCore] using hds
  | succ f ih =>
    intro n ds hds
    have hcons : ∀ c ∈ Nat.digitChar (n % 10) :: ds, c.isDigit = true := by
      intro c hc
      rcases List.mem_cons.mp hc with rfl | hc
      · exact digitChar_isDigit _ (Nat.mod_lt _ (by norm_num))
      · exact hds c hc
    simp only [Nat.toDigitsCore]
    split
    · exact hcons
    · exact ih (n / 10) (Nat.digitChar (n % 10) :: ds) hcons

/-- Every character of the decimal representation of a natural number is a
decimal digit. -/
theorem repr_isDigit (n : Nat) : ∀ c ∈ (Nat.repr n).data, c.isDigit = true :=
  toDigitsCore_digits (n + 1) n [] (by simp)

/-- The zero-padded field `%06d` of a number below 10^6 has width exactly 6
and consists of decimal digits only. -/
theorem sprintf06_spec (n : Nat) (h : n < 1000000) :
    (sprintf06 n).length = 6 ∧ ∀ c ∈ (sprintf06 n).data, c.isDigit = true := by
  have hlen : (Nat.repr n).length ≤ 6 := Nat.repr_length n 6 (by norm_num) (by norm_num [h])
  constructor
  · show (List.replicate (6 - (Nat.repr n).length) '0' ++ (Nat.repr n).data).length = 6
    rw [List.length_append, List.length_replicate]
    have hdl : (Nat.repr n).data.length = (Nat.repr n).length := rfl
    omega
  · intro c hc
    rcases List.mem_append.mp hc with h0 | hd
    · rw [List.eq_of_mem_replicate h0]
      decide
    · exact repr_isDigit n c hd

/-- The generated membership id is the prefix LBK followed by a zero-padded
6-digit decimal field. -/
theorem generateMembershipID_spec (nanos : Nat) :
    ∃ pad : String, GenerateMembershipID nanos = "LBK" ++ pad ∧ pad.length = 6 ∧
      ∀ c ∈ pad.data, c.isDigit = true := by
  have hb : nanos % 999999 < 1000000 :=
    lt_trans (Nat.mod_lt _ (by norm_num)) (by norm_num)
  exact ⟨sprintf06 (nanos % 999999), rfl, (sprintf06_spec _ hb).1, (sprintf06_spec _ hb).2⟩

/-- C3: whenever `CreateUser` returns a user (which happens exactly for valid
requests with a fresh email), that user's membership type is Bronze when the
request left it empty, its points are 0 when the request omitted them, and
its membership id is non-empty and consists of the prefix LBK followed by a
zero-padded 6-digit number. -/
theorem c3_create_defaults_and_membership_id (s : RepoState) (req : CreateUserRequest)
    (nanos : Nat) (u : User) (s' : RepoState)
    (hsucc : CreateUser dbRepo s req nanos = ((some u, none), s')) :
    (req.membershipType = "" → u.membershipType = "Bronze") ∧
    (req.points = 0 → u.points = 0) ∧
    u.membershipID ≠ "" ∧
    ∃ pad : String, u.membershipID = "LBK" ++ pad ∧ pad.length = 6 ∧
      ∀ c ∈ pad.data, c.isDigit = true := by
  obtain ⟨-, -, -, -, hu, -⟩ := createUser_ok_char s req nanos u s' hsucc
  subst hu
  obtain ⟨pad, hpad, hplen, hpdig⟩ := generateMembershipID_spec nanos
  have hmid : (insertedUser s req nanos).membershipID = GenerateMembershipID nanos := rfl
  refine ⟨?_, ?_, ?_, ?_⟩
  · intro h
    simp [insertedUser, pendingUser, h]
  · intro h
    simp [insertedUser, pendingUser, h]
  · rw [hmid, hpad]
    intro hcontra
    have hdata := congrArg String.data hcontra
    have hshape : ("LBK" ++ pad).data = 'L' :: 'B' :: 'K' :: pad.data := rfl
    rw [hshape] at hdata
    simp at hdata
  · rw [hmid]
    exact ⟨pad, hpad, hplen, hpdig⟩

/-- Witness for C3 at a successful create from the empty table. -/
theorem c3_create_defaults_and_membership_id_witness :
    ((⟨"John", "Doe", "john@example.com", "", "", 0⟩ : CreateUserRequest).membershipType = "" →
      (⟨1, "John", "Doe", "john@example.com", "", "Bronze", "LBK123456", 100, 0⟩ :
        User).membershipType = "Bronze") ∧
    ((⟨"John", "Doe", "john@example.com", "", "", 0⟩ : CreateUserRequest).points = 0 →
      (⟨1, "John", "Doe", "john@example.com", "", "Bronze", "LBK123456", 100, 0⟩ :
        User).points = 0) ∧
    (⟨1, "John", "Doe", "john@example.com", "", "Bronze", "LBK123456", 100, 0⟩ :
      User).membershipID ≠ "" ∧
    ∃ pad : String,
      (⟨1, "John", "Doe", "john@example.com", "", "Bronze", "LBK123456", 100, 0⟩ :
        User).membershipID = "LBK" ++ pad ∧ pad.length = 6 ∧
      ∀ c ∈ pad.data, c.isDigit = true :=
  c3_create_defaults_and_membership_id st0 ⟨"John", "Doe", "john@example.com", "", "", 0⟩
    123456 ⟨1, "John", "Doe", "john@example.com", "", "Bronze", "LBK123456", 100, 0⟩
    ⟨[⟨1, "John", "Doe", "john@example.com", "", "Bronze", "LBK123456", 100, 0⟩], 2, 100⟩
    (by decide)

theorem map_replace_self (l : List User) (u : User)
    (hnd : l.Pairwise (fun a b => a.id ≠ b.id)) (hu : u ∈ l) :
    l.map (fun v => if v.id == u.id then u else v) = l := by
  induction l with
  | nil => rfl
  | cons h t ih =>
    rcases List.pairwise_cons.mp hnd with ⟨hh, ht⟩
    rcases List.mem_cons.mp hu with rfl | hu'
    · simp only [List.map_cons, beq_self_eq_true, if_pos]
      have htail : t.map (fun v => if v.id == u.id then u else v) = t := by
        have : ∀ v ∈ t, (if v.id == u.id then u else v) = v := by
          intro v hv
          have : (v.id == u.id) = false := by
            simp only [beq_eq_false_iff_ne, ne_eq]
            intro hvu
            exact hh v hv hvu.symm
          rw [this]
          rfl
        calc t.map (fun v => if v.id == u.id then u else v) = t.map id :=
              List.map_congr_left this
          _ = t := List.map_id t
      rw [htail]
    · have hne : (h.id == u.id) = false := by
        simp only [beq_eq_false_iff_ne, ne_eq]
        exact hh u hu'
      simp only [List.map_cons, hne]
      rw [if_neg (by simp)]
      rw [ih ht hu']

/-- Characterization of a successful `saveMergedUser` against the SQLite
repository, when some stored row carries the (nonzero) id being updated:
the returned user is the merged one and the new table replaces the rows
with that id by it. -/
theorem saveMerged_ok_char (s : RepoState) (req : UpdateUserRequest) (user1 u : User)
    (s' : RepoState) (x : User) (hx : x ∈ s.users) (hxid : x.id = user1.id)
    (hnz : user1.id ≠ 0)
    (hsucc : saveMergedUser dbRepo s req user1 = ((some u, none), s')) :
    u = mergeFields req user1 ∧
    s'.users = s.users.map (fun v => if v.id == user1.id then u else v) := by
  unfold saveMergedUser at hsucc
  dsimp only [dbRepo] at hsucc
  have hmid : (mergeFields req user1).id = user1.id := rfl
  have hz : ((mergeFields req user1).id == 0) = false := by
    simp [hmid, hnz]
  have hany : s.users.any (fun v => v.id == (mergeFields req user1).id) = true := by
    rw [List.any_eq_true]
    exact ⟨x, hx, by simp [hmid, hxid]⟩
  unfold dbUpdate at hsucc
  rw [hz] at hsucc
  simp only [Bool.false_eq_true, if_false, hany, if_true] at hsucc
  by_cases hE : s.users.any
      (fun v => v.id != (mergeFields req user1).id &&
        v.email == (mergeFields req user1).email) = true
  · rw [if_pos hE] at hsucc
    simp at hsucc
  · rw [if_neg hE] at hsucc
    by_cases hM : s.users.any
        (fun v => v.id != (mergeFields req user1).id &&
          v.membershipID == (mergeFields req user1).membershipID) = true
    · rw [if_pos hM] at hsucc
      simp at hsucc
    · rw [if_neg hM] at hsucc
      simp only [Prod.mk.injEq, Option.some.injEq] at hsucc
      obtain ⟨⟨hu, -⟩, hs'⟩ := hsucc
      refine ⟨hu.symm, ?_⟩
      rw [← hs', ← hu, hmid]

/-- A successful `UpdateUser` against the SQLite repository returns the
field-merge of the stored user (with the new email applied first when an
email change was requested), and the new table replaces the rows with the
updated id by it. -/
theorem updateUser_ok_char (s : RepoState) (id : Nat) (req : UpdateUserRequest)
    (user u : User) (s' : RepoState)
    (h0 : id ≠ 0) (hget : dbGetByID s id = (some user, none))
    (hsucc : UpdateUser dbRepo s id req = ((some u, none), s')) :
    u = mergeFields req
      (if req.email ≠ "" ∧ req.email ≠ user.email then { user with email := req.email }
        else user) ∧
    s'.users = s.users.map (fun v => if v.id == id then u else v) := by
  have hfind : s.users.find? (fun v => v.id == id) = some user := by
    have h := dbGetByID_fst s id
    rw [hget] at h
    exact h.symm
  have hmem : user ∈ s.users := List.mem_of_find?_eq_some hfind
  have huid : user.id = id := by
    have := List.find?_some hfind
    simpa using this
  unfold UpdateUser at hsucc
  rw [if_neg h0] at hsucc
  dsimp only [dbRepo] at hsucc
  rw [hget] at hsucc
  dsimp only at hsucc
  by_cases hch : req.email ≠ "" ∧ req.email ≠ user.email
  · rw [if_pos hch] at hsucc
    by_cases hpr : ((dbGetByEmail s req.email).1).isSome = true
    · rw [if_pos hpr] at hsucc
      simp at hsucc
    · rw [if_neg hpr] at hsucc
      have hch' : ({ user with email := req.email } : User).id = user.id := rfl
      obtain ⟨hu, hmap⟩ := saveMerged_ok_char s req { user with email := req.email } u s'
        user hmem (by rw [hch']) (by rw [hch', huid]; exact h0) hsucc
      rw [if_pos hch]
      exact ⟨hu, by rwa [hch', huid] at hmap⟩
  · rw [if_neg hch] at hsucc
    obtain ⟨hu, hmap⟩ := saveMerged_ok_char s req user u s' user hmem rfl
      (by rw [huid]; exact h0) hsucc
    rw [if_neg hch]
    exact ⟨hu, by rwa [huid] at hmap⟩

/-- The duplicate-email failure branch of `UpdateUser` against the SQLite
repository: a requested change to an email owned by another row fails and
leaves the state untouched. -/
theorem updateUser_dup (s : RepoState) (id : Nat) (req : UpdateUserRequest) (user w : User)
    (h0 : id ≠ 0) (hget : dbGetByID s id = (some user, none))
    (he1 : req.email ≠ "") (he2 : req.email ≠ user.email)
    (hprobe : (dbGetByEmail s req.email).1 = some w) :
    UpdateUser dbRepo s id req = ((none, some "user with this email already exists"), s) := by
  unfold UpdateUser
  rw [if_neg h0]
  dsimp only [dbRepo]
  rw [hget]
  dsimp only
  rw [if_pos ⟨he1, he2⟩]
  have hpr : ((dbGetByEmail s req.email).1).isSome = true := by
    rw [hprobe]
    rfl
  rw [if_pos hpr]

/-- An update with the all-zero request is a no-op: it succeeds and returns
the stored user and the unchanged table (the unique constraints cannot fire
on a well-formed table). -/
theorem updateUser_empty_noop (s : RepoState) (id : Nat) (user : User)
    (hWF : WF s) (h0 : id ≠ 0) (hget : dbGetByID s id = (some user, none)) :
    UpdateUser dbRepo s id emptyUpdateReq = ((some user, none), s) := by
  have hfind : s.users.find? (fun v => v.id == id) = some user := by
    have h := dbGetByID_fst s id
    rw [hget] at h
    exact h.symm
  have hmem : user ∈ s.users := List.mem_of_find?_eq_some hfind
  have huid : user.id = id := by
    have := List.find?_some hfind
    simpa using this
  have hIds : s.users.Pairwise (fun a b => a.id ≠ b.id) := hWF.imp (fun h => h.1)
  have hEms : s.users.Pairwise (fun a b => a.email ≠ b.email) := hWF.imp (fun h => h.2.1)
  have hMids : s.users.Pairwise (fun a b => a.membershipID ≠ b.membershipID) :=
    hWF.imp (fun h => h.2.2)
  have hEmF := hEms.forall (fun a b h => h.symm)
  have hMidF := hMids.forall (fun a b h => h.symm)
  unfold UpdateUser
  rw [if_neg h0]
  dsimp only [dbRepo]
  rw [hget]
  dsimp only
  rw [if_neg (by simp [emptyUpdateReq])]
  unfold saveMergedUser
  dsimp only [dbRepo]
  have hmerge : mergeFields emptyUpdateReq user = user := rfl
  rw [hmerge]
  have hupd : dbUpdate s user = (none, s) := by
    unfold dbUpdate
    have hz : (user.id == 0) = false := by simp [huid, h0]
    rw [hz]
    simp only [Bool.false_eq_true, if_false]
    have hany : s.users.any (fun v => v.id == user.id) = true := by
      rw [List.any_eq_true]
      exact ⟨user, hmem, by simp⟩
    rw [hany]
    simp only [if_true]
    have hE : s.users.any (fun v => v.id != user.id && v.email == user.email) = false := by
      rw [List.any_eq_false]
      intro v hv
      simp only [Bool.and_eq_true, bne_iff_ne, ne_eq, beq_iff_eq, not_and]
      intro hne
      refine hEmF hv hmem ?_
      intro hvu
      exact hne (by rw [hvu])
    have hM : s.users.any
        (fun v => v.id != user.id && v.membershipID == user.membershipID) = false := by
      rw [List.any_eq_false]
      intro v hv
      simp only [Bool.and_eq_true, bne_iff_ne, ne_eq, beq_iff_eq, not_and]
      intro hne
      refine hMidF hv hmem ?_
      intro hvu
      exact hne (by rw [hvu])
    rw [hE, hM]
    simp only [Bool.false_eq_true, if_false]
    rw [map_replace_self s.users user hIds hmem]
  rw [hupd]

/-- C2: `UpdateUser` performs a partial merge: whenever it returns a user,
each of first name, last name, phone and membership type was overwritten
exactly when the supplied value was non-empty, and points exactly when
non-zero (so points 0 behaves as "no change requested"); and the all-zero
request succeeds and leaves the stored user and the table unchanged. -/
theorem c2_update_merge (s : RepoState) (id : Nat) (req : UpdateUserRequest) (user : User)
    (h0 : id ≠ 0) (hget : dbGetByID s id = (some user, none)) :
    (∀ (u : User) (s' : RepoState),
        UpdateUser dbRepo s id req = ((some u, none), s') →
        u.firstName = (if req.firstName = "" then user.firstName else req.firstName) ∧
        u.lastName = (if req.lastName = "" then user.lastName else req.lastName) ∧
        u.phone = (if req.phone = "" then user.phone else req.phone) ∧
        u.membershipType =
          (if req.membershipType = "" then user.membershipType else req.membershipType) ∧
        u.points = (if req.points = 0 then user.points else req.points)) ∧
    (WF s → UpdateUser dbRepo s id emptyUpdateReq = ((some user, none), s)) := by
  constructor
  · intro u s' hsucc
    obtain ⟨hu, -⟩ := updateUser_ok_char s id req user u s' h0 hget hsucc
    subst hu
    have h1 : (if req.email ≠ "" ∧ req.email ≠ user.email then
        { user with email := req.email } else user).firstName = user.firstName := by
      split <;> rfl
    have h2 : (if req.email ≠ "" ∧ req.email ≠ user.email then
        { user with email := req.email } else user).lastName = user.lastName := by
      split <;> rfl
    have h3 : (if req.email ≠ "" ∧ req.email ≠ user.email then
        { user with email := req.email } else user).phone = user.phone := by
      split <;> rfl
    have h4 : (if req.email ≠ "" ∧ req.email ≠ user.email then
        { user with email := req.email } else user).membershipType = user.membershipType := by
      split <;> rfl
    have h5 : (if req.email ≠ "" ∧ req.email ≠ user.email then
        { user with email := req.email } else user).points = user.points := by
      split <;> rfl
    refine ⟨?_, ?_, ?_, ?_, ?_⟩
    · show (if req.firstName ≠ "" then req.firstName else _) = _
      rw [h1]
      by_cases hf : req.firstName = "" <;> simp [hf]
    · show (if req.lastName ≠ "" then req.lastName else _) = _
      rw [h2]
      by_cases hf : req.lastName = "" <;> simp [hf]
    · show (if req.phone ≠ "" then req.phone else _) = _
      rw [h3]
      by_cases hf : req.phone = "" <;> simp [hf]
    · show (if req.membershipType ≠ "" then req.membershipType else _) = _
      rw [h4]
      by_cases hf : req.membershipType = "" <;> simp [hf]
    · show (if req.points ≠ 0 then req.points else _) = _
      rw [h5]
      by_cases hf : req.points = 0 <;> simp [hf]
  · intro hWF
    exact updateUser_empty_noop s id user hWF h0 hget

/-- Witness for C2: updating `alice` with only a first name and points
supplied, and with the all-zero request. -/
theorem c2_update_merge_witness :
    ((⟨1, "Jane", "Doe", "alice@example.com", "081", "Gold", "LBK000001", 10, 200⟩ :
        User).firstName =
      (if ("Jane" : String) = "" then alice.firstName else "Jane") ∧
     (⟨1, "Jane", "Doe", "alice@example.com", "081", "Gold", "LBK000001", 10, 200⟩ :
        User).lastName =
      (if ("" : String) = "" then alice.lastName else "") ∧
     (⟨1, "Jane", "Doe", "alice@example.com", "081", "Gold", "LBK000001", 10, 200⟩ :
        User).phone =
      (if ("" : String) = "" then alice.phone else "") ∧
     (⟨1, "Jane", "Doe", "alice@example.com", "081", "Gold", "LBK000001", 10, 200⟩ :
        User).membershipType =
      (if ("" : String) = "" then alice.membershipType else "") ∧
     (⟨1, "Jane", "Doe", "alice@example.com", "081", "Gold", "LBK000001", 10, 200⟩ :
        User).points =
      (if (200 : Int) = 0 then alice.points else 200)) ∧
    UpdateUser dbRepo st1 1 emptyUpdateReq = ((some alice, none), st1) := by
  have h := c2_update_merge st1 1 ⟨"Jane", "", "", "", "", 200⟩ alice
    (by decide) (by decide)
  exact ⟨h.1 ⟨1, "Jane", "Doe", "alice@example.com", "081", "Gold", "LBK000001", 10, 200⟩
      ⟨[⟨1, "Jane", "Doe", "alice@example.com", "081", "Gold", "LBK000001", 10, 200⟩], 2, 100⟩
      (by decide),
    h.2 (by unfold WF; decide)⟩

/-- C9: whenever `UpdateUser` returns a user, that user keeps the stored
user's id, membership id and join date, and every row of the new table is
either an old row or the updated user itself: no update request can change
these three fields. -/
theorem c9_update_frame (s : RepoState) (id : Nat) (req : UpdateUserRequest)
    (user u : User) (s' : RepoState)
    (h0 : id ≠ 0) (hget : dbGetByID s id = (some user, none))
    (hsucc : UpdateUser dbRepo s id req = ((some u, none), s')) :
    u.id = user.id ∧ u.membershipID = user.membershipID ∧ u.joinDate = user.joinDate ∧
    ∀ v ∈ s'.users, v ∈ s.users ∨ v = u := by
  obtain ⟨hu, hmap⟩ := updateUser_ok_char s id req user u s' h0 hget hsucc
  refine ⟨?_, ?_, ?_, ?_⟩
  · rw [hu]
    show (if req.email ≠ "" ∧ req.email ≠ user.email then
      { user with email := req.email } else user).id = user.id
    split <;> rfl
  · rw [hu]
    show (if req.email ≠ "" ∧ req.email ≠ user.email then
      { user with email := req.email } else user).membershipID = user.membershipID
    split <;> rfl
  · rw [hu]
    show (if req.email ≠ "" ∧ req.email ≠ user.email then
      { user with email := req.email } else user).joinDate = user.joinDate
    split <;> rfl
  · intro v hv
    rw [hmap] at hv
    obtain ⟨w, hw, hwv⟩ := List.mem_map.mp hv
    by_cases hid : (w.id == id) = true
    · right
      rw [if_pos hid] at hwv
      exact hwv.symm
    · left
      rw [if_neg hid] at hwv
      rwa [← hwv]

/-- Witness for C9: updating `alice` with a new first name and points. -/
theorem c9_update_frame_witness :
    (⟨1, "Jane", "Doe", "alice@example.com", "081", "Gold", "LBK000001", 10, 200⟩ :
        User).id = alice.id ∧
    (⟨1, "Jane", "Doe", "alice@example.com", "081", "Gold", "LBK000001", 10, 200⟩ :
        User).membershipID = alice.membershipID ∧
    (⟨1, "Jane", "Doe", "alice@example.com", "081", "Gold", "LBK000001", 10, 200⟩ :
        User).joinDate = alice.joinDate ∧
    ∀ v ∈ (⟨[⟨1, "Jane", "Doe", "alice@example.com", "081", "Gold", "LBK000001", 10,
        200⟩], 2, 100⟩ : RepoState).users,
      v ∈ st1.users ∨
        v = ⟨1, "Jane", "Doe", "alice@example.com", "081", "Gold", "LBK000001", 10, 200⟩ :=
  c9_update_frame st1 1 ⟨"Jane", "", "", "", "", 200⟩ alice
    ⟨1, "Jane", "Doe", "alice@example.com", "081", "Gold", "LBK000001", 10, 200⟩
    ⟨[⟨1, "Jane", "Doe", "alice@example.com", "081", "Gold", "LBK000001", 10, 200⟩], 2, 100⟩
    (by decide) (by decide) (by decide)

/-- C6: if an update requests a non-empty email differing from the stored
one and another user owns it, the update fails with the duplicate-email
error and the table is unchanged; if the requested email is empty or equal
to the current one, the email-existence probe is never consulted (the
outcome is the same for every probe implementation) and a returned user
keeps the stored email; otherwise, when the probe finds nobody, the
returned user carries the new email. -/
theorem c6_update_email_rules :
    (∀ (s : RepoState) (id : Nat) (req : UpdateUserRequest) (user w : User),
        id ≠ 0 → dbGetByID s id = (some user, none) →
        req.email ≠ "" → req.email ≠ user.email →
        (dbGetByEmail s req.email).1 = some w →
        UpdateUser dbRepo s id req =
          ((none, some "user with this email already exists"), s)) ∧
    (∀ (σ : Type) (R : UserRepositoryI σ) (g : σ → String → Option User × Option String)
        (s : σ) (id : Nat) (req : UpdateUserRequest) (user : User),
        R.getByID s id = (some user, none) →
        (req.email = "" ∨ req.email = user.email) →
        UpdateUser { R with getByEmail := g } s id req = UpdateUser R s id req) ∧
    (∀ (s : RepoState) (id : Nat) (req : UpdateUserRequest) (user u : User) (s' : RepoState),
        id ≠ 0 → dbGetByID s id = (some user, none) →
        (req.email = "" ∨ req.email = user.email) →
        UpdateUser dbRepo s id req = ((some u, none), s') →
        u.email = user.email) ∧
    (∀ (s : RepoState) (id : Nat) (req : UpdateUserRequest) (user u : User) (s' : RepoState),
        id ≠ 0 → dbGetByID s id = (some user, none) →
        req.email ≠ "" → req.email ≠ user.email →
        (dbGetByEmail s req.email).1 = none →
        UpdateUser dbRepo s id req = ((some u, none), s') →
        u.email = req.email) := by
  refine ⟨?_, ?_, ?_, ?_⟩
  · intro s id req user w h0 hget he1 he2 hprobe
    exact updateUser_dup s id req user w h0 hget he1 he2 hprobe
  · intro σ R g s id req user hget hemail
    unfold UpdateUser
    by_cases h0 : id = 0
    · rw [if_pos h0, if_pos h0]
    rw [if_neg h0, if_neg h0]
    dsimp only
    rw [hget]
    dsimp only
    have hcond : ¬(req.email ≠ "" ∧ req.email ≠ user.email) := by
      rintro ⟨a, b⟩
      rcases hemail with h | h
      · exact a h
      · exact b h
    rw [if_neg hcond, if_neg hcond]
    unfold saveMergedUser
    rfl
  · intro s id req user u s' h0 hget hemail hsucc
    obtain ⟨hu, -⟩ := updateUser_ok_char s id req user u s' h0 hget hsucc
    have hcond : ¬(req.email ≠ "" ∧ req.email ≠ user.email) := by
      rintro ⟨a, b⟩
      rcases hemail with h | h
      · exact a h
      · exact b h
    rw [hu, if_neg hcond]
    rfl
  · intro s id req user u s' h0 hget he1 he2 hprobe hsucc
    obtain ⟨hu, -⟩ := updateUser_ok_char s id req user u s' h0 hget hsucc
    rw [hu, if_pos ⟨he1, he2⟩]
    rfl

/-- Witness for C6: against the table holding `alice` and `bob`: changing
`bob`'s email to `alice`'s fails with the duplicate error; an update not
touching the email ignores the probe entirely (even one that always fails)
and keeps the email; changing `alice`'s email to a fresh one assigns it. -/
theorem c6_update_email_rules_witness :
    UpdateUser dbRepo st2 2 ⟨"", "", "alice@example.com", "", "", 0⟩ =
      ((none, some "user with this email already exists"), st2) ∧
    UpdateUser { dbRepo with getByEmail := fun _ _ => (none, some "boom") } st1 1
        emptyUpdateReq = UpdateUser dbRepo st1 1 emptyUpdateReq ∧
    alice.email = alice.email ∧
    (⟨1, "Alice", "Doe", "new@example.com", "081", "Gold", "LBK000001", 10, 5⟩ :
        User).email = "new@example.com" :=
  ⟨c6_update_email_rules.1 st2 2 ⟨"", "", "alice@example.com", "", "", 0⟩ bob alice
      (by decide) (by decide) (by decide) (by decide) (by decide),
    c6_update_email_rules.2.1 RepoState dbRepo (fun _ _ => (none, some "boom")) st1 1
      emptyUpdateReq alice (by decide) (Or.inl rfl),
    c6_update_email_rules.2.2.1 st1 1 emptyUpdateReq alice alice st1 (by decide) (by decide)
      (Or.inl rfl) (by decide),
    c6_update_email_rules.2.2.2 st1 1 ⟨"", "", "new@example.com", "", "", 0⟩ alice
      ⟨1, "Alice", "Doe", "new@example.com", "081", "Gold", "LBK000001", 10, 5⟩
      ⟨[⟨1, "Alice", "Doe", "new@example.com", "081", "Gold", "LBK000001", 10, 5⟩], 2, 100⟩
      (by decide) (by decide) (by decide) (by decide) (by decide) (by decide)⟩

/-- C5 counterexample: a user value whose id (5) matches no row of the empty
table.  The repository update does not fail: it reports no error and
re-creates the row (GORM `Save` falls back to an insert when the UPDATE
affects zero rows). -/
theorem c5_update_missing_row_counterexample :
    (dbUpdate st0
        ⟨5, "Ghost", "Row", "ghost@example.com", "", "Bronze", "LBK999999", 10, 0⟩).1 =
      none ∧
    (dbUpdate st0
        ⟨5, "Ghost", "Row", "ghost@example.com", "", "Bronze", "LBK999999", 10, 0⟩).2.users =
      [⟨5, "Ghost", "Row", "ghost@example.com", "", "Bronze", "LBK999999", 10, 0⟩] := by
  decide

/-- C5 (amended): updating a user value whose (nonzero) id matches no stored
row succeeds by re-creating the row — upsert-style — whenever the insert
violates no unique constraint; it does not fail. -/
theorem c5_update_missing_row_upserts (s : RepoState) (u : User)
    (hnz : u.id ≠ 0) (hid : ∀ v ∈ s.users, v.id ≠ u.id)
    (hem : ∀ v ∈ s.users, v.email ≠ u.email)
    (hmid : ∀ v ∈ s.users, v.membershipID ≠ u.membershipID) :
    dbUpdate s u =
      (none, { s with
        users := s.users ++
          [{ u with joinDate := if u.joinDate == 0 then s.now else u.joinDate }],
        nextId := max s.nextId (u.id + 1) }) := by
  unfold dbUpdate
  have hz : (u.id == 0) = false := by simp [hnz]
  rw [hz]
  simp only [Bool.false_eq_true, if_false]
  have hany : s.users.any (fun v => v.id == u.id) = false := by
    rw [List.any_eq_false]
    intro v hv
    simpa using hid v hv
  rw [hany]
  simp only [Bool.false_eq_true, if_false]
  unfold dbCreate
  have h1 : (u.id != 0 && s.users.any (fun v => v.id == u.id)) = false := by
    rw [hany]
    simp
  have h2 : s.users.any (fun v => v.email == u.email) = false := by
    rw [List.any_eq_false]
    intro v hv
    simpa using hem v hv
  have h3 : s.users.any (fun v => v.membershipID == u.membershipID) = false := by
    rw [List.any_eq_false]
    intro v hv
    simpa using hmid v hv
  rw [h1, h2, h3]
  simp [hz]

/-- Witness for the amended C5: updating a ghost row with id 5 against the
table holding only `alice` re-creates it. -/
theorem c5_update_missing_row_upserts_witness :
    dbUpdate st1 ⟨5, "Ghost", "Row", "ghost@example.com", "", "Bronze", "LBK999999", 10, 0⟩ =
      (none,
        ⟨[alice, ⟨5, "Ghost", "Row", "ghost@example.com", "", "Bronze", "LBK999999", 10, 0⟩],
          6, 100⟩) :=
  c5_update_missing_row_upserts st1
    ⟨5, "Ghost", "Row", "ghost@example.com", "", "Bronze", "LBK999999", 10, 0⟩
    (by decide) (by decide) (by decide) (by decide)

theorem getUserByID_err (s : RepoState) (id : Nat) (e : String)
    (h : (GetUserByID dbRepo s id).2 = some e) :
    e = "invalid user ID" ∨ e = "user not found" := by
  unfold GetUserByID at h
  by_cases h0 : id = 0
  · rw [if_pos h0] at h
    left
    simpa using h.symm
  · rw [if_neg h0] at h
    dsimp only [dbRepo] at h
    unfold dbGetByID at h
    cases hf : s.users.find? (fun v => v.id == id) with
    | some u =>
      rw [hf] at h
      simp at h
    | none =>
      rw [hf] at h
      right
      simpa using h.symm

theorem dbCreate_err (s : RepoState) (u : User) (e : String)
    (h : (dbCreate s u).1.2 = some e) :
    e = "UNIQUE constraint failed: users.id" ∨
      e = "UNIQUE constraint failed: users.email" ∨
      e = "UNIQUE constraint failed: users.membership_id" := by
  unfold dbCreate at h
  split at h
  · left
    simpa using h.symm
  · split at h
    · right
      left
      simpa using h.symm
    · split at h
      · right
        right
        simpa using h.symm
      · simp at h

theorem dbUpdate_err (s : RepoState) (u : User) (e : String)
    (h : (dbUpdate s u).1 = some e) :
    e = "UNIQUE constraint failed: users.id" ∨
      e = "UNIQUE constraint failed: users.email" ∨
      e = "UNIQUE constraint failed: users.membership_id" := by
  unfold dbUpdate at h
  split at h
  · exact dbCreate_err s u e (by simpa using h)
  · split at h
    · split at h
      · right
        left
        simpa using h.symm
      · split at h
        · right
          right
          simpa using h.symm
        · simp at h
    · exact dbCreate_err s u e (by simpa using h)

theorem saveMerged_err (s : RepoState) (req : UpdateUserRequest) (user1 : User) (e : String)
    (h : (saveMergedUser dbRepo s req user1).1.2 = some e) :
    e = "UNIQUE constraint failed: users.id" ∨
      e = "UNIQUE constraint failed: users.email" ∨
      e = "UNIQUE constraint failed: users.membership_id" := by
  unfold saveMergedUser at h
  dsimp only [dbRepo] at h
  cases hu : (dbUpdate s (mergeFields req user1)).1 with
  | some e2 =>
    rw [hu] at h
    have he : e = e2 := by simpa using h.symm
    rw [he]
    exact dbUpdate_err s (mergeFields req user1) e2 hu
  | none =>
    rw [hu] at h
    simp at h

theorem updateUser_err (s : RepoState) (id : Nat) (req : UpdateUserRequest) (e : String)
    (h : (UpdateUser dbRepo s id req).1.2 = some e) :
    e = "invalid user ID" ∨ e = "user not found" ∨
      e = "user with this email already exists" ∨
      e = "UNIQUE constraint failed: users.id" ∨
      e = "UNIQUE constraint failed: users.email" ∨
      e = "UNIQUE constraint failed: users.membership_id" := by
  unfold UpdateUser at h
  by_cases h0 : id = 0
  · rw [if_pos h0] at h
    left
    simpa using h.symm
  rw [if_neg h0] at h
  dsimp only [dbRepo] at h
  rcases hg : dbGetByID s id with ⟨ou, oe⟩
  rw [hg] at h
  cases oe with
  | some e2 =>
    have he2 : e2 = "user not found" := by
      unfold dbGetByID at hg
      cases hf : s.users.find? (fun v => v.id == id) with
      | some u =>
        rw [hf] at hg
        simp at hg
      | none =>
        rw [hf] at hg
        simp only [Prod.mk.injEq] at hg
        exact (Option.some.injEq .. ▸ hg.2).symm
    cases ou <;>
      · have he : e = e2 := by simpa using h.symm
        rw [he, he2]
        right
        left
        rfl
  | none =>
    cases ou with
    | none => simp at h
    | some user =>
      dsimp only at h
      by_cases hch : req.email ≠ "" ∧ req.email ≠ user.email
      · rw [if_pos hch] at h
        by_cases hpr : ((dbGetByEmail s req.email).1).isSome = true
        · rw [if_pos hpr] at h
          right
          right
          left
          simpa using h.symm
        · rw [if_neg hpr] at h
          have := saveMerged_err s req { user with email := req.email } e h
          tauto
      · rw [if_neg hch] at h
        have := saveMerged_err s req user e h
        tauto

theorem deleteUser_err (s : RepoState) (id : Nat) (e : String)
    (h : (DeleteUser dbRepo s id).1 = some e) :
    e = "invalid user ID" ∨ e = "user not found" := by
  unfold DeleteUser at h
  by_cases h0 : id = 0
  · rw [if_pos h0] at h
    left
    simpa using h.symm
  rw [if_neg h0] at h
  dsimp only [dbRepo] at h
  cases hg : (dbGetByID s id).2 with
  | some e2 =>
    rw [hg] at h
    dsimp only at h
    have he2 : e2 = "user not found" := by
      unfold dbGetByID at hg
      cases hf : s.users.find? (fun v => v.id == id) with
      | some u =>
        rw [hf] at hg
        simp at hg
      | none =>
        rw [hf] at hg
        simpa using hg.symm
    right
    rw [show e = e2 from by simpa using h.symm, he2]
  | none =>
    rw [hg] at h
    dsimp only at h
    unfold dbDelete at h
    dsimp only at h
    split at h
    · right
      simpa using h.symm
    · simp at h

/-- C7: a path id that does not parse as a 32-bit non-negative integer makes
the GET-, PUT- and DELETE-by-id handlers answer 400 with the invalid-id
message for every repository implementation (no use-case call can influence
the outcome); and for every error the use case actually returns against the
SQLite repository, the handler answers 404 exactly for the not-found string,
400 exactly for the missing-required-fields or duplicate-email strings, and
otherwise 500 with a fixed generic message that is not the error's text. -/
theorem c7_handler_error_mapping :
    (∀ (σ : Type) (R : UserRepositoryI σ) (s : σ) (idParam : String)
        (req : UpdateUserRequest),
        parseUint32 idParam = none →
        getUserHandler R s idParam = ⟨400, some "Invalid user ID", none⟩ ∧
        (updateUserHandler R s idParam req).1 = ⟨400, some "Invalid user ID", none⟩ ∧
        (deleteUserHandler R s idParam).1 = ⟨400, some "Invalid user ID", none⟩) ∧
    (∀ (s : RepoState) (idParam : String) (id : Nat) (req : UpdateUserRequest) (e : String),
        parseUint32 idParam = some id →
        ((GetUserByID dbRepo s id).2 = some e →
          (getUserHandler dbRepo s idParam).status = claimedStatus e ∧
          (claimedStatus e = 500 →
            (getUserHandler dbRepo s idParam).error = some "Failed to retrieve user" ∧
            e ≠ "Failed to retrieve user")) ∧
        ((UpdateUser dbRepo s id req).1.2 = some e →
          (updateUserHandler dbRepo s idParam req).1.status = claimedStatus e ∧
          (claimedStatus e = 500 →
            (updateUserHandler dbRepo s idParam req).1.error = some "Failed to update user" ∧
            e ≠ "Failed to update user")) ∧
        ((DeleteUser dbRepo s id).1 = some e →
          (deleteUserHandler dbRepo s idParam).1.status = claimedStatus e ∧
          (claimedStatus e = 500 →
            (deleteUserHandler dbRepo s idParam).1.error = some "Failed to delete user" ∧
            e ≠ "Failed to delete user"))) := by
  constructor
  · intro σ R s idParam req hparse
    unfold getUserHandler updateUserHandler deleteUserHandler
    rw [hparse]
    exact ⟨rfl, rfl, rfl⟩
  · intro s idParam id req e hparse
    refine ⟨?_, ?_, ?_⟩
    · intro he
      have hset := getUserByID_err s id e he
      unfold getUserHandler
      rw [hparse]
      dsimp only
      have hG : GetUserByID dbRepo s id = ((GetUserByID dbRepo s id).1, some e) := by
        rw [← he]
      rw [hG]
      dsimp only
      rcases hset with rfl | rfl <;> decide
    · intro he
      have hset := updateUser_err s id req e he
      unfold updateUserHandler
      rw [hparse]
      dsimp only
      have hU : (UpdateUser dbRepo s id req).1 =
          ((UpdateUser dbRepo s id req).1.1, some e) := by
        rw [← he]
      rw [hU]
      dsimp only
      rcases hset with rfl | rfl | rfl | rfl | rfl | rfl <;> simp [claimedStatus]
    · intro he
      have hset := deleteUser_err s id e he
      unfold deleteUserHandler
      rw [hparse]
      dsimp only
      rw [he]
      dsimp only
      rcases hset with rfl | rfl <;> simp [claimedStatus]

/-- Witness for C7: the non-numeric path id "abc" yields 400 on all three
handlers, and the use-case error at the unknown id 7 on the empty table is
mapped to the claimed status 404 by all three handlers. -/
theorem c7_handler_error_mapping_witness :
    (getUserHandler dbRepo st1 "abc" = ⟨400, some "Invalid user ID", none⟩ ∧
      (updateUserHandler dbRepo st1 "abc" emptyUpdateReq).1 =
        ⟨400, some "Invalid user ID", none⟩ ∧
      (deleteUserHandler dbRepo st1 "abc").1 = ⟨400, some "Invalid user ID", none⟩) ∧
    (getUserHandler dbRepo st0 "7").status = claimedStatus "user not found" ∧
    (updateUserHandler dbRepo st0 "7" emptyUpdateReq).1.status =
      claimedStatus "user not found" ∧
    (deleteUserHandler dbRepo st0 "7").1.status = claimedStatus "user not found" := by
  have h1 := c7_handler_error_mapping.1 RepoState dbRepo st1 "abc" emptyUpdateReq (by decide)
  have h2 := c7_handler_error_mapping.2 st0 "7" 7 emptyUpdateReq "user not found" (by decide)
  exact ⟨h1, (h2.1 (by decide)).1, (h2.2.1 (by decide)).1, (h2.2.2 (by decide)).1⟩

/-- Witness for C8: the parts with hypotheses, at the table holding only
`alice` and the concrete ids 0, 1 and 5. -/
theorem c8_delete_behavior_witness :
    dbDelete st1 5 = (some "user not found", st1) ∧
    DeleteUser dbRepo st1 5 = (some "user not found", st1) ∧
    DeleteUser dbRepo st1 1 = (none, ⟨[], 2, 100⟩) ∧
    DeleteUser dbRepo ⟨[], 2, 100⟩ 1 = (some "user not found", ⟨[], 2, 100⟩) := by
  refine ⟨c8_delete_behavior.2.1 st1 5 (by decide),
    c8_delete_behavior.2.2.1 st1 5 (by decide) (by decide), ?_, ?_⟩
  · have := (c8_delete_behavior.2.2.2 st1 1 alice (by decide) (by decide)).1
    simpa using this
  · have := (c8_delete_behavior.2.2.2 st1 1 alice (by decide) (by decide)).2
    simpa using this

end Workshop
